import Mathlib

/-!
Verification development for the frogfs runtime access library
(src/src/frogfs.c): a shallow embedding of the lookup engine, the image
binder, stat/open, and the directory iterator, with theorems checking the
specification's claims against the code.
-/

namespace Frogfs

/-- Byte string: the bytes of a NUL-terminated C string (each byte 1..255;
    a NUL cannot occur inside the string). -/
abbrev CStr := List Nat

/-- One record of the hash index: `frogfs_hash_t` (hash:u32, offs:u32). -/
structure HashRec where
  hash : Nat
  offs : Nat
deriving DecidableEq

/-- Dummy record returned for an out-of-range read of the hash table (the C
    code never reads out of range on the paths modelled here). -/
def dummyRec : HashRec := ⟨0, 0⟩

/-- Modelled from the spec: the entry record overlays of `frogfs_format.h`
    (`frogfs_entry_t` common prefix, `frogfs_dir_t`, `frogfs_file_t`,
    `frogfs_comp_t`) are not under src/; one structure carries the union of
    their fields, with `isDir` standing for the type tag tested by
    `FROGFS_IS_DIR` / `FROGFS_IS_FILE`, `seg` the entry's name segment
    (`seg_sz = seg.length`), and the remaining fields the per-overlay payload
    fields described in spec section 3. -/
structure FrogEntry where
  isDir : Bool
  compression : Nat
  seg : CStr
  parent : Nat
  childCount : Nat
  children : List Nat
  dataSz : Nat
  dataOffs : Nat
  realSz : Nat
deriving DecidableEq

/-- A bound image as the resolver sees it: the hash index `tab` (`fs->hash`,
    with `fs->num_entries = tab.length`), the entry records keyed by image
    offset (the C code reaches an entry as `fs->head + offs`), and the offset
    of the root directory entry (`fs->root`). -/
structure Image where
  tab : List HashRec
  entries : List (Nat × FrogEntry)
  rootOffs : Nat

/-- Read the entry record at an image offset. -/
def Image.lookup (img : Image) (offs : Nat) : Option FrogEntry :=
  List.lookup offs img.entries

/-- Sign extension of a `char` byte into the low 32 bits of the hash
    accumulator: on the targeted platforms `char` is signed, so in
    `djb2_hash` the expression `*s++` promotes a byte at or above 0x80 to a
    negative `int` before the XOR, contributing `0xFFFFFF00 + b` to the low
    32 bits instead of `b`. -/
def signExtByte (b : Nat) : Nat := if b < 128 then b else 0xFFFFFF00 + b

/-- One iteration of `djb2_hash` (line 55): `hash = ((hash << 5) + hash) ^
    *s++`, projected to the low 32 bits. The C accumulator is an `unsigned
    long` and the function truncates to `uint32_t` on return; the low 32 bits
    of every step depend only on the low 32 bits of the operands, so applying
    the modulus at each step is faithful. -/
def djb2Step (h b : Nat) : Nat := (((h <<< 5) + h) ^^^ signExtByte b) % 2 ^ 32

/-- `djb2_hash` (lines 49-59). -/
def djb2_hash (s : CStr) : Nat := s.foldl djb2Step 5381

/-- The hash defined by the spec's words: `h := 5381; for each byte b:
    h := ((h<<5) + h) XOR b` with `b` the unsigned byte value 0..255 and
    32-bit wrap-around. Stated for comparison with `djb2_hash` (claim C2). -/
def djb2SpecStep (h b : Nat) : Nat := (((h <<< 5) + h) ^^^ b) % 2 ^ 32

/-- The spec's djb2-XOR over a byte string, for comparison with the code's
    `djb2_hash`. -/
def djb2_xor_spec (s : CStr) : Nat := s.foldl djb2SpecStep 5381

/-- `frogfs_get_name` (lines 195-204) returns a pointer to the in-place name
    segment; in this embedding the segment bytes are the `seg` field (the
    pointer arithmetic over the record tail carries no separate content). -/
def frogfs_get_name (entry : FrogEntry) : CStr := entry.seg

/-- PATH_MAX of limits.h on the reference platform. -/
def PATH_MAX : Nat := 4096

/-- Loop of `frogfs_get_path` (lines 220-234): prepend the current entry's
    segment (with a separating slash unless its parent is the root) and climb
    the `parent` link. `len` mirrors the C length counter. The fuel is
    `PATH_MAX`, which bounds the iteration count: `len` grows by at least one
    on every non-breaking iteration and the guard demands
    `len + seg_sz + 1 < PATH_MAX - 1`. A `parent` offset with no entry record
    would be an out-of-image dereference in C (undefined behaviour); it is
    modelled as stopping the walk. -/
def getPathLoop (img : Image) : Nat → FrogEntry → CStr → Nat → CStr
  | 0, _, path, _ => path
  | fuel + 1, entry, path, len =>
    if entry.parent ≠ 0 ∧ len + entry.seg.length + 1 < PATH_MAX - 1 then
      if entry.parent = img.rootOffs then
        frogfs_get_name entry ++ path
      else
        match img.lookup entry.parent with
        | some parent =>
          getPathLoop img fuel parent (47 :: (frogfs_get_name entry ++ path))
            (len + entry.seg.length + 1)
        | none => 47 :: (frogfs_get_name entry ++ path)
    else path

/-- `frogfs_get_path` (lines 206-237): the root (parent = 0) reconstructs to
    the empty string, every other entry to its slash-separated full path with
    no leading slash. -/
def frogfs_get_path (img : Image) (entry : FrogEntry) : CStr :=
  if entry.parent = 0 then [] else getPathLoop img PATH_MAX entry [] 0

/-- Lines 137-139 of `frogfs_get_entry`: `while (*path == '/') path++`
    (47 is the byte of a slash). -/
def dropSlashes : CStr → CStr
  | [] => []
  | b :: rest => if b = 47 then dropSlashes rest else b :: rest

/-- Binary search loop of `frogfs_get_entry` (lines 150-160), on C `int`
    bounds. Returns `some (middle, last)` at the `break` (the record at
    `middle` carries the wanted hash; `last` is its value at break time,
    which the candidate walk reuses), and `none` when the window empties
    (`first > last`, lines 162-165). The divisions happen on a nonnegative
    difference, where C truncating division and `Int` division agree. The
    fuel only guards the recursion: `tab.length + 1` exceeds the number of
    halvings of a window inside the table, so the fuel is never exhausted on
    a call from `frogfs_get_entry`. -/
def bsearchLoop (tab : List HashRec) (h : Nat) : Nat → Int → Int → Option (Int × Int)
  | 0, _, _ => none
  | fuel + 1, first, last =>
    if first ≤ last then
      let middle := first + (last - first) / 2
      let e := tab.getD middle.toNat dummyRec
      if e.hash = h then some (middle, last)
      else if e.hash < h then bsearchLoop tab h fuel (middle + 1) last
      else bsearchLoop tab h fuel first (middle - 1)
    else none

/-- Rewind loop of `frogfs_get_entry` (lines 167-174): move `middle` back
    over records that also carry the wanted hash. Returns the pair
    `(e, middle)` of the C variables at loop exit, as indices. The exit
    through the failing `middle > 0` test (a tie group reaching index 0)
    leaves `e` at index 1 while `middle` is 0: the C pointer `e` is only
    reassigned at the top of the loop body, so the two genuinely disagree
    there. -/
def rewindLoop (tab : List HashRec) (h : Nat) : Nat → Nat → Nat × Nat
  | e, 0 => (e, 0)
  | _, m + 1 =>
    if (tab.getD m dummyRec).hash ≠ h then (m + 1, m + 1)
    else rewindLoop tab h (m + 1) m

/-- Candidate walk of `frogfs_get_entry` (lines 176-189). The C body never
    advances `e`: `entry` is recomputed from the same `e->offs` on every
    round and only the dead `entry++` and the `middle++` run, so each
    iteration reconstructs the path of the same candidate; the do/while
    condition is `(middle < last) && (e->hash == hash)`. Returns the image
    offset of the entry the C function returns. The fuel `tab.length + 1`
    bounds the iterations, since `middle` grows by one per round and the
    guard keeps it below `last < tab.length`. An `offs` naming no entry
    record would be an out-of-image dereference in C (undefined behaviour);
    it is modelled as a failed comparison. -/
def walkLoop (img : Image) (path : CStr) (eIdx : Nat) (h : Nat) (last : Int) :
    Nat → Int → Option Nat
  | 0, _ => none
  | fuel + 1, middle =>
    let offs := (img.tab.getD eIdx dummyRec).offs
    let matched : Bool :=
      match img.lookup offs with
      | some entry => frogfs_get_path img entry == path
      | none => false
    if matched then some offs
    else if middle + 1 < last ∧ (img.tab.getD eIdx dummyRec).hash = h then
      walkLoop img path eIdx h last fuel (middle + 1)
    else none

/-- `frogfs_get_entry` (lines 132-193), returning the image offset of the
    returned entry pointer (`NULL` becomes `none`). -/
def frogfs_get_entry (img : Image) (path : CStr) : Option Nat :=
  let path := dropSlashes path
  let h := djb2_hash path
  match bsearchLoop img.tab h (img.tab.length + 1) 0 ((img.tab.length : Int) - 1) with
  | none => none
  | some (middle, last) =>
    let r := rewindLoop img.tab h middle.toNat middle.toNat
    walkLoop img path r.1 h last (img.tab.length + 1) (r.2 : Int)

/-- Header fields read by `frogfs_init` (`frogfs_head_t`; the format header
    is not under src/, field list per spec section 6). -/
structure FrogHead where
  magic : Nat
  verMajor : Nat
  verMinor : Nat
  numEntries : Nat
  binaryLen : Nat
deriving DecidableEq

/-- Modelled from the spec: the numeric values of `FROGFS_MAGIC` and
    `FROGFS_VER_MAJOR` live in the format header, which is not under src/;
    only equality against the image header matters to `frogfs_init`, so fixed
    representative constants are used. -/
def FROGFS_MAGIC : Nat := 0x474F5246

/-- Compiled-in major version constant (representative value; see
    `FROGFS_MAGIC`). -/
def FROGFS_VER_MAJOR : Nat := 1

/-- Modelled from the spec: section 6 places the hash index at image offset
    24, so `sizeof(frogfs_head_t)` is 24 bytes. -/
def headSize : Nat := 24

/-- A hash record is two u32 fields, 8 bytes. -/
def hashRecSize : Nat := 8

/-- What `frogfs_init` records on success (pointers become image offsets:
    `fs->hash = head + sizeof(frogfs_head_t)`, `fs->root = fs->hash +
    sizeof(frogfs_hash_t) * num_entries`). -/
structure BoundFs where
  numEntries : Nat
  hashOffs : Nat
  rootOffs : Nat
deriving DecidableEq

/-- `frogfs_init` (lines 61-118) on a pre-mapped image (`conf->addr`
    non-null; the ESP partition mapping path is out of scope). `imageLen` is
    the length of the mapped image: the C function never reads it, which is
    visible in this definition's body. -/
def frogfs_init (head : FrogHead) (imageLen : Nat) : Option BoundFs :=
  if head.magic ≠ FROGFS_MAGIC then none
  else if head.verMajor ≠ FROGFS_VER_MAJOR then none
  else some
    { numEntries := head.numEntries
      hashOffs := headSize
      rootOffs := headSize + hashRecSize * head.numEntries }

/-- Entry type tags of `frogfs_stat_t` (`FROGFS_ENTRY_TYPE_DIR` /
    `FROGFS_ENTRY_TYPE_FILE`). -/
inductive EntryType where
  | dir
  | file
deriving DecidableEq

/-- The stat record filled by `frogfs_stat` (zero-initialized by `memset`). -/
structure FrogStat where
  type : EntryType
  compression : Nat
  size : Nat
  compressedSz : Nat
deriving DecidableEq

/-- `frogfs_stat` (lines 249-271). -/
def frogfs_stat (entry : FrogEntry) : FrogStat :=
  if entry.isDir then
    { type := .dir, compression := 0, size := 0, compressedSz := 0 }
  else if entry.compression ≠ 0 then
    { type := .file, compression := entry.compression
      size := entry.realSz, compressedSz := entry.dataSz }
  else
    { type := .file, compression := entry.compression
      size := entry.dataSz, compressedSz := entry.dataSz }

/-- The decompressor driver `frogfs_open` selects (`frogfs_decomp_raw` /
    `frogfs_decomp_deflate` / `frogfs_decomp_heatshrink`). -/
inductive Driver where
  | raw
  | deflate
  | heatshrink
deriving DecidableEq

/-- Open flag `FROGFS_OPEN_RAW`. Modelled from the spec: the public header is
    not under src/; a single flag bit. -/
def FROGFS_OPEN_RAW : Nat := 1

/-- Compression tag for DEFLATE (spec section 3: 0 none, 1 DEFLATE,
    2 Heatshrink). -/
def FROGFS_COMP_ALGO_DEFLATE : Nat := 1

/-- Compression tag for Heatshrink. -/
def FROGFS_COMP_ALGO_HEATSHRINK : Nat := 2

/-- The file handle built by `frogfs_open` (`frogfs_fh_t`): the entry, the
    payload offset and size, the logical size, the stored flags, the selected
    driver, and the read cursor (`data_ptr`, kept as a distance from
    `data_start`, zero straight after open). -/
structure FileHandle where
  file : FrogEntry
  dataStart : Nat
  dataSz : Nat
  realSz : Nat
  flags : Nat
  driver : Driver
  pos : Nat
deriving DecidableEq

/-- `frogfs_open` (lines 273-333). `useDeflate` and `useHeatshrink` mirror
    the compile-time switches `CONFIG_FROGFS_USE_DEFLATE` /
    `CONFIG_FROGFS_USE_HEATSHRINK` guarding the two `else if` arms. The
    driver open hook is elided: modelled from the spec, the raw driver needs
    no initialization and the decoder implementations are outside src/. -/
def frogfs_open (useDeflate useHeatshrink : Bool) (entry : FrogEntry)
    (flags : Nat) : Option FileHandle :=
  if entry.isDir then none
  else if entry.compression = 0 ∨ flags &&& FROGFS_OPEN_RAW ≠ 0 then
    some { file := entry, dataStart := entry.dataOffs, dataSz := entry.dataSz
           realSz := entry.dataSz, flags := flags, driver := .raw, pos := 0 }
  else if useDeflate ∧ entry.compression = FROGFS_COMP_ALGO_DEFLATE then
    some { file := entry, dataStart := entry.dataOffs, dataSz := entry.dataSz
           realSz := entry.realSz, flags := flags, driver := .deflate, pos := 0 }
  else if useHeatshrink ∧ entry.compression = FROGFS_COMP_ALGO_HEATSHRINK then
    some { file := entry, dataStart := entry.dataOffs, dataSz := entry.dataSz
           realSz := entry.realSz, flags := flags, driver := .heatshrink, pos := 0 }
  else none

/-- Modelled from the spec: the Raw driver holds a cursor in [0, data_sz);
    read hands back min(requested, remaining) bytes and advances the cursor.
    The driver implementation file is not under src/. It never consults the
    stored open flags. Returns the byte count and the updated handle. -/
def raw_read (fh : FileHandle) (len : Nat) : Nat × FileHandle :=
  let n := min len (fh.dataSz - fh.pos)
  (n, { fh with pos := fh.pos + n })

/-- Seek whence selectors (set / cur / end). -/
inductive Whence where
  | set
  | cur
  | fromEnd
deriving DecidableEq

/-- Modelled from the spec: Raw seek supports set/cur/end with full random
    access, clamping beyond the logical size and failing on a negative
    target. -/
def raw_seek (fh : FileHandle) (off : Int) (w : Whence) : Option FileHandle :=
  let base : Int :=
    match w with
    | .set => 0
    | .cur => (fh.pos : Int)
    | .fromEnd => (fh.dataSz : Int)
  let target := base + off
  if target < 0 then none
  else some { fh with pos := min target.toNat fh.dataSz }

/-- Modelled from the spec: Raw tell returns the cursor. -/
def raw_tell (fh : FileHandle) : Nat := fh.pos

/-- The directory handle `frogfs_dh_t` (declared in a header not under src/):
    the directory entry (`dh->dir`; `none` models a null pointer) and the
    cursor `dh->index`. -/
structure DirHandle where
  dir : Option FrogEntry
  index : Nat
deriving DecidableEq

/-- The handle `frogfs_opendir` (lines 397-419) builds for a directory entry:
    calloc zeroes the index. -/
def opendirHandle (d : FrogEntry) : DirHandle := { dir := some d, index := 0 }

/-- `frogfs_readdir` (lines 430-444): the returned child offset (if any) and
    the updated handle. -/
def frogfs_readdir (dh : DirHandle) : Option Nat × DirHandle :=
  match dh.dir with
  | none => (none, dh)
  | some d =>
    if dh.index < d.childCount then
      (some (d.children.getD dh.index 0), { dh with index := dh.index + 1 })
    else (none, dh)

/-- `frogfs_rewinddir` (lines 446-451). -/
def frogfs_rewinddir (dh : DirHandle) : DirHandle := { dh with index := 0 }

/-- `frogfs_telldir` (lines 463-468). -/
def frogfs_telldir (dh : DirHandle) : Nat := dh.index

/-- Loop of `frogfs_seekdir` (lines 458-460): `while (dh->index < loc)
    frogfs_readdir(dh);`. The C loop has no other exit, so a result of `none`
    for every fuel value is exactly non-termination of the C loop. -/
def seekdirLoop (loc : Nat) : DirHandle → Nat → Option DirHandle
  | _, 0 => none
  | dh, fuel + 1 =>
    if dh.index < loc then seekdirLoop loc (frogfs_readdir dh).2 fuel
    else some dh

/-- `frogfs_seekdir` (lines 453-461): rewind, then the advance loop. -/
def frogfs_seekdir (dh : DirHandle) (loc : Nat) (fuel : Nat) : Option DirHandle :=
  seekdirLoop loc (frogfs_rewinddir dh) fuel

/-- One cursor-affecting call on an open directory handle (`frogfs_telldir`
    only reads the cursor). -/
inductive DirOp where
  | read
  | rewind
  | tell
deriving DecidableEq

/-- Effect of one call on the handle. -/
def applyDirOp (dh : DirHandle) : DirOp → DirHandle
  | .read => (frogfs_readdir dh).2
  | .rewind => frogfs_rewinddir dh
  | .tell => dh

/-- Run a call sequence left to right. -/
def runDirOps (dh : DirHandle) (ops : List DirOp) : DirHandle :=
  ops.foldl applyDirOp dh

/-!
Concrete images for the counterexample evaluations.
-/

/-- Executable check of format invariant 1: the hash column of the index is
    sorted ascending (ties allowed). -/
def ascendingB : List HashRec → Bool
  | [] => true
  | [_] => true
  | a :: b :: rest => Nat.ble a.hash b.hash && ascendingB (b :: rest)

/-- The bytes of the path "a9fv7f"; its djb2 hash is 1416180444, the same as
    that of "a9d2qf". -/
def segA1 : CStr := [97, 57, 102, 118, 55, 102]

/-- The bytes of the path "a9d2qf". -/
def segB1 : CStr := [97, 57, 100, 50, 113, 102]

/-- Root directory of the two-way collision image: two children, both direct
    children of the root. -/
def rootC1 : FrogEntry :=
  { isDir := true, compression := 0, seg := [], parent := 0,
    childCount := 2, children := [200, 300], dataSz := 0, dataOffs := 0,
    realSz := 0 }

/-- File entry for "a9fv7f", stored first in its hash tie group. -/
def entryA1 : FrogEntry :=
  { isDir := false, compression := 0, seg := segA1, parent := 100,
    childCount := 0, children := [], dataSz := 4, dataOffs := 400,
    realSz := 0 }

/-- File entry for "a9d2qf", stored second in its hash tie group. -/
def entryB1 : FrogEntry :=
  { isDir := false, compression := 0, seg := segB1, parent := 100,
    childCount := 0, children := [], dataSz := 4, dataOffs := 408,
    realSz := 0 }

/-- Collision image: the hash index is sorted ascending, the two tied records
    reconstruct to distinct full paths, and every record's hash is the djb2
    hash of its entry's full path. -/
def imgC1 : Image :=
  { tab := [⟨5381, 100⟩, ⟨1416180444, 200⟩, ⟨1416180444, 300⟩],
    entries := [(100, rootC1), (200, entryA1), (300, entryB1)],
    rootOffs := 100 }

/-- The bytes of the path "lgi7bny"; its djb2 hash is 5381, the same as that
    of the empty path. -/
def segC5 : CStr := [108, 103, 105, 55, 98, 110, 121]

/-- Root directory of the empty-path collision image. -/
def rootC5 : FrogEntry :=
  { isDir := true, compression := 0, seg := [], parent := 0,
    childCount := 1, children := [48], dataSz := 0, dataOffs := 0,
    realSz := 0 }

/-- File entry for "lgi7bny", a direct child of the root, stored first in the
    tie group of hash 5381. -/
def entryAC5 : FrogEntry :=
  { isDir := false, compression := 0, seg := segC5, parent := 40,
    childCount := 0, children := [], dataSz := 4, dataOffs := 96,
    realSz := 0 }

/-- Image whose root record shares hash 5381 (the djb2 hash of the empty
    path) with the record of "lgi7bny"; the index is sorted ascending and
    every record's hash is the djb2 hash of its entry's full path. -/
def imgC5 : Image :=
  { tab := [⟨5381, 48⟩, ⟨5381, 40⟩],
    entries := [(40, rootC5), (48, entryAC5)],
    rootOffs := 40 }

/-!
Claim theorems.
-/

/-- C1: within a hash tie group the resolver is claimed to examine every
    candidate and return the one whose reconstructed path matches. On
    `imgC1`, whose index is sorted and whose tied entries have the distinct
    full paths "a9fv7f" and "a9d2qf" with the same djb2 hash, resolving the
    second path of the group returns NULL: the candidate walk of
    `frogfs_get_entry` never advances `e`, so only the first candidate is
    ever compared. The conjuncts certify the image is well formed (sorted,
    hashes honest, paths distinct and correctly reconstructed), that the
    first candidate still resolves, and that the second does not — with or
    without a leading slash. -/
theorem c1_collision_walk_misses_second_candidate :
    ascendingB imgC1.tab = true
    ∧ djb2_hash segA1 = 1416180444
    ∧ djb2_hash segB1 = 1416180444
    ∧ segA1 ≠ segB1
    ∧ frogfs_get_path imgC1 entryA1 = segA1
    ∧ frogfs_get_path imgC1 entryB1 = segB1
    ∧ frogfs_get_entry imgC1 segA1 = some 200
    ∧ frogfs_get_entry imgC1 segB1 = none
    ∧ frogfs_get_entry imgC1 (47 :: segB1) = none := by
  decide

/-- C2 counterexample: on the one-byte string 0x80 the hash computed by the
    code differs from the spec's unsigned-byte djb2-XOR value, because the C
    expression `*s++` sign-extends the (signed) char before the XOR. -/
theorem c2_counterexample_high_byte :
    djb2_hash [128] ≠ djb2_xor_spec [128] := by
  decide

/-- Accumulator-generalized form of the C2 agreement on 7-bit bytes. -/
theorem foldl_djb2_ascii (s : CStr) :
    ∀ a, (∀ b ∈ s, b < 128) → s.foldl djb2Step a = s.foldl djb2SpecStep a := by
  induction s with
  | nil => intro a _; rfl
  | cons b rest ih =>
    intro a hs
    have hb : b < 128 := hs b (List.mem_cons_self b rest)
    simp only [List.foldl_cons]
    rw [show djb2Step a b = djb2SpecStep a b from by
      simp [djb2Step, djb2SpecStep, signExtByte, hb]]
    exact ih _ (fun x hx => hs x (List.mem_cons_of_mem b hx))

/-- C2 (amended): the hash computed by the resolver equals the spec's
    djb2-XOR value for every byte string whose bytes are all below 0x80; for
    bytes at or above 0x80 the code XORs the sign-extended char value
    instead (see `c2_counterexample_high_byte`). -/
theorem c2_djb2_matches_spec_on_ascii (s : CStr) (hs : ∀ b ∈ s, b < 128) :
    djb2_hash s = djb2_xor_spec s :=
  foldl_djb2_ascii s 5381 hs

/-- C2 witness: the amended agreement evaluated on the bytes of "hello". -/
theorem c2_djb2_matches_spec_on_ascii_witness :
    (∀ b ∈ ([104, 101, 108, 108, 111] : CStr), b < 128)
    ∧ djb2_hash [104, 101, 108, 108, 111] = djb2_xor_spec [104, 101, 108, 108, 111] :=
  ⟨by decide, c2_djb2_matches_spec_on_ascii [104, 101, 108, 108, 111] (by decide)⟩

/-- C3 counterexample: a header with valid magic and major version but
    num_entries = 2^28 binds successfully against a 32-byte image even though
    its hash table alone would need 8 * 2^28 bytes — the claimed third check
    (num_entries fits within the image) does not exist in `frogfs_init`. -/
theorem c3_counterexample_oversized_table_binds :
    frogfs_init
        { magic := FROGFS_MAGIC, verMajor := FROGFS_VER_MAJOR, verMinor := 0,
          numEntries := 268435456, binaryLen := 32 } 32
      = some { numEntries := 268435456, hashOffs := 24, rootOffs := 2147483672 }
    ∧ headSize + hashRecSize * 268435456 > 32 := by
  decide

/-- C3 (amended): bind performs exactly two checks, in order — header magic,
    then major version — each a hard failure, and returns a bound image
    whenever both pass, regardless of whether num_entries fits within the
    image. -/
theorem c3_init_two_checks (hm hv hg : FrogHead) (len : Nat)
    (h1 : hm.magic ≠ FROGFS_MAGIC)
    (h2m : hv.magic = FROGFS_MAGIC) (h2 : hv.verMajor ≠ FROGFS_VER_MAJOR)
    (h3m : hg.magic = FROGFS_MAGIC) (h3v : hg.verMajor = FROGFS_VER_MAJOR) :
    frogfs_init hm len = none
    ∧ frogfs_init hv len = none
    ∧ frogfs_init hg len = some
        { numEntries := hg.numEntries, hashOffs := headSize,
          rootOffs := headSize + hashRecSize * hg.numEntries } := by
  refine ⟨?_, ?_, ?_⟩
  · simp [frogfs_init, h1]
  · simp [frogfs_init, h2m, h2]
  · simp [frogfs_init, h3m, h3v]

/-- Concrete header with a corrupted magic. -/
def headBadMagic : FrogHead :=
  { magic := 0, verMajor := 1, verMinor := 0, numEntries := 1, binaryLen := 100 }

/-- Concrete header with a wrong major version. -/
def headBadMajor : FrogHead :=
  { magic := FROGFS_MAGIC, verMajor := 9, verMinor := 0, numEntries := 1,
    binaryLen := 100 }

/-- Concrete header passing both checks. -/
def headGood : FrogHead :=
  { magic := FROGFS_MAGIC, verMajor := FROGFS_VER_MAJOR, verMinor := 0,
    numEntries := 1, binaryLen := 100 }

/-- C3 witness: the two-check behaviour evaluated on three concrete headers
    (bad magic, bad major, both good) against a 100-byte image. -/
theorem c3_init_two_checks_witness :
    frogfs_init headBadMagic 100 = none
    ∧ frogfs_init headBadMajor 100 = none
    ∧ frogfs_init headGood 100 = some
        { numEntries := 1, hashOffs := headSize,
          rootOffs := headSize + hashRecSize * 1 } :=
  c3_init_two_checks headBadMagic headBadMajor headGood 100 (by decide)
    (by decide) (by decide) (by decide) (by decide)

/-- C5: for the empty path (and any run of slashes) the resolver is claimed
    to return the root entry of every bound image. On `imgC5` — sorted index,
    all hashes honest, tied paths distinct, root present in the index — the
    empty path hashes to 5381, which the path "lgi7bny" also hashes to; the
    tie-group walk of `frogfs_get_entry` only ever compares the first
    candidate (the "lgi7bny" record), so resolving "", "/", and "///" all
    return NULL instead of the root. There is no early return for an empty
    remainder in the code: the empty path goes through the generic hash
    lookup. -/
theorem c5_empty_path_misresolves_on_5381_collision :
    djb2_hash [] = 5381
    ∧ djb2_hash segC5 = 5381
    ∧ ascendingB imgC5.tab = true
    ∧ frogfs_get_path imgC5 entryAC5 = segC5
    ∧ frogfs_get_path imgC5 rootC5 = []
    ∧ Image.lookup imgC5 imgC5.rootOffs = some rootC5
    ∧ frogfs_get_entry imgC5 [] = none
    ∧ frogfs_get_entry imgC5 [47] = none
    ∧ frogfs_get_entry imgC5 [47, 47, 47] = none := by
  decide

/-- C6: resolving a path with any number of extra leading slashes gives the
    same result as resolving the bare path — `frogfs_get_entry` strips all
    leading slashes before hashing, so one extra slash (and hence any number)
    has no effect on the outcome. -/
theorem c6_leading_slashes_ignored (img : Image) (p : CStr) :
    frogfs_get_entry img (47 :: p) = frogfs_get_entry img p
    ∧ frogfs_get_entry img (47 :: 47 :: 47 :: p) = frogfs_get_entry img p := by
  have h : dropSlashes (47 :: p) = dropSlashes p := by
    simp [dropSlashes]
  have h3 : dropSlashes (47 :: 47 :: 47 :: p) = dropSlashes p := by
    simp [dropSlashes]
  constructor
  · simp only [frogfs_get_entry, h]
  · simp only [frogfs_get_entry, h3]

/-- Once the cursor has reached child_count, `frogfs_readdir` returns no
    entry and leaves the handle unchanged. -/
theorem frogfs_readdir_at_end (dh : DirHandle) (d : FrogEntry)
    (hdir : dh.dir = some d) (hidx : d.childCount ≤ dh.index) :
    frogfs_readdir dh = (none, dh) := by
  simp [frogfs_readdir, hdir, Nat.not_lt.mpr hidx]

/-- The seekdir loop makes no progress when the cursor already sits at or
    past child_count but still below the requested position: the loop runs
    out of any amount of fuel. -/
theorem seekdirLoop_stuck (d : FrogEntry) (loc : Nat) :
    ∀ (fuel : Nat) (dh : DirHandle), dh.dir = some d →
    d.childCount ≤ dh.index → dh.index < loc →
    seekdirLoop loc dh fuel = none := by
  intro fuel
  induction fuel with
  | zero => intro dh _ _ _; rfl
  | succ n ih =>
    intro dh hdir hidx hlt
    have h2 : (frogfs_readdir dh).2 = dh := by
      rw [frogfs_readdir_at_end dh d hdir hidx]
    simp only [seekdirLoop, if_pos hlt, h2]
    exact ih dh hdir hidx hlt

/-- A directory entry with a single child, for the C4 evaluation. -/
def dirC4 : FrogEntry :=
  { isDir := true, compression := 0, seg := [100, 105, 114], parent := 24,
    childCount := 1, children := [500], dataSz := 0, dataOffs := 0,
    realSz := 0 }

/-- C4: `frogfs_seekdir` to a position past child_count never terminates. On
    a one-child directory, seeking to position 2 yields no result for any
    amount of fuel — `frogfs_readdir` stops advancing the cursor at
    child_count, so `while (dh->index < loc)` never exits — while seeking to
    the in-range position 1 terminates with the cursor at 1. The claim
    instead promises termination with the cursor clamped at child_count. -/
theorem c4_seekdir_past_end_loops_forever :
    (∀ fuel, frogfs_seekdir (opendirHandle dirC4) 2 fuel = none)
    ∧ frogfs_seekdir (opendirHandle dirC4) 1 4 =
        some { dir := some dirC4, index := 1 } := by
  constructor
  · intro fuel
    cases fuel with
    | zero => rfl
    | succ n =>
      have h1 : frogfs_seekdir (opendirHandle dirC4) 2 (n + 1)
          = seekdirLoop 2 { dir := some dirC4, index := 1 } n := by
        simp [frogfs_seekdir, frogfs_rewinddir, opendirHandle, seekdirLoop,
          frogfs_readdir, dirC4]
      rw [h1]
      exact seekdirLoop_stuck dirC4 2 n { dir := some dirC4, index := 1 } rfl
        (by decide) (by decide)
  · decide

/-- C7: `frogfs_stat` reports a directory as type dir with both sizes zero,
    an uncompressed file as type file with both sizes equal to data_sz, and a
    compressed file as type file with logical size real_sz and compressed
    size data_sz, the compression field being the entry's tag. -/
theorem c7_stat_fields (d f c : FrogEntry)
    (hd : d.isDir = true)
    (hf : f.isDir = false) (hf0 : f.compression = 0)
    (hc : c.isDir = false) (hcc : c.compression ≠ 0) :
    frogfs_stat d =
      { type := .dir, compression := 0, size := 0, compressedSz := 0 }
    ∧ frogfs_stat f =
      { type := .file, compression := 0, size := f.dataSz,
        compressedSz := f.dataSz }
    ∧ frogfs_stat c =
      { type := .file, compression := c.compression, size := c.realSz,
        compressedSz := c.dataSz } := by
  refine ⟨?_, ?_, ?_⟩
  · simp [frogfs_stat, hd]
  · simp [frogfs_stat, hf, hf0]
  · simp [frogfs_stat, hc, hcc]

/-- Concrete directory entry for the C7 witness. -/
def dirStatC7 : FrogEntry :=
  { isDir := true, compression := 0, seg := [99], parent := 24,
    childCount := 0, children := [], dataSz := 0, dataOffs := 0, realSz := 0 }

/-- Concrete uncompressed 13-byte file for the C7 witness. -/
def fileStatC7 : FrogEntry :=
  { isDir := false, compression := 0, seg := [97], parent := 24,
    childCount := 0, children := [], dataSz := 13, dataOffs := 128,
    realSz := 0 }

/-- Concrete DEFLATE-compressed file (312 bytes stored, 1024 logical) for the
    C7 witness. -/
def compStatC7 : FrogEntry :=
  { isDir := false, compression := 1, seg := [98], parent := 24,
    childCount := 0, children := [], dataSz := 312, dataOffs := 160,
    realSz := 1024 }

/-- C7 witness: the stat fields evaluated on a directory, an uncompressed
    file, and a compressed file. -/
theorem c7_stat_fields_witness :
    frogfs_stat dirStatC7 =
      { type := .dir, compression := 0, size := 0, compressedSz := 0 }
    ∧ frogfs_stat fileStatC7 =
      { type := .file, compression := 0, size := 13, compressedSz := 13 }
    ∧ frogfs_stat compStatC7 =
      { type := .file, compression := 1, size := 1024, compressedSz := 312 } :=
  c7_stat_fields dirStatC7 fileStatC7 compStatC7 rfl rfl rfl rfl (by decide)

/-- C8: `frogfs_open` rejects directories; an entry with compression 0, or
    any file opened with the RAW flag, gets the Raw driver with logical size
    data_sz; compression DEFLATE with DEFLATE compiled in gets the DEFLATE
    driver with logical size real_sz; compression HEATSHRINK with Heatshrink
    compiled in gets the Heatshrink driver with logical size real_sz; any
    other compression tag (without RAW) makes open fail. -/
theorem c8_open_driver_selection (D H : Bool) (flags flagsR : Nat)
    (ed e0 er ec1 ec2 ex : FrogEntry)
    (hd : ed.isDir = true)
    (h0d : e0.isDir = false) (h0c : e0.compression = 0)
    (hrd : er.isDir = false) (hrw : flagsR &&& FROGFS_OPEN_RAW ≠ 0)
    (h1d : ec1.isDir = false) (h1c : ec1.compression = FROGFS_COMP_ALGO_DEFLATE)
    (hD : D = true) (hnr : flags &&& FROGFS_OPEN_RAW = 0)
    (h2d : ec2.isDir = false) (h2c : ec2.compression = FROGFS_COMP_ALGO_HEATSHRINK)
    (hH : H = true)
    (hxd : ex.isDir = false)
    (hx0 : ex.compression ≠ 0) (hx1 : ex.compression ≠ FROGFS_COMP_ALGO_DEFLATE)
    (hx2 : ex.compression ≠ FROGFS_COMP_ALGO_HEATSHRINK) :
    frogfs_open D H ed flags = none
    ∧ frogfs_open D H e0 flags = some
        { file := e0, dataStart := e0.dataOffs, dataSz := e0.dataSz,
          realSz := e0.dataSz, flags := flags, driver := .raw, pos := 0 }
    ∧ frogfs_open D H er flagsR = some
        { file := er, dataStart := er.dataOffs, dataSz := er.dataSz,
          realSz := er.dataSz, flags := flagsR, driver := .raw, pos := 0 }
    ∧ frogfs_open D H ec1 flags = some
        { file := ec1, dataStart := ec1.dataOffs, dataSz := ec1.dataSz,
          realSz := ec1.realSz, flags := flags, driver := .deflate, pos := 0 }
    ∧ frogfs_open D H ec2 flags = some
        { file := ec2, dataStart := ec2.dataOffs, dataSz := ec2.dataSz,
          realSz := ec2.realSz, flags := flags, driver := .heatshrink, pos := 0 }
    ∧ frogfs_open D H ex flags = none := by
  refine ⟨?_, ?_, ?_, ?_, ?_, ?_⟩
  · simp [frogfs_open, hd]
  · simp [frogfs_open, h0d, h0c]
  · simp [frogfs_open, hrd, hrw]
  · simp [frogfs_open, h1d, h1c, hnr, hD, FROGFS_COMP_ALGO_DEFLATE]
  · simp [frogfs_open, h2d, h2c, hnr, hD, hH, FROGFS_COMP_ALGO_DEFLATE,
      FROGFS_COMP_ALGO_HEATSHRINK]
  · simp [frogfs_open, hxd, hx0, hx1, hx2, hnr]

/-- Concrete directory for the C8 witness. -/
def dirOpenC8 : FrogEntry :=
  { isDir := true, compression := 0, seg := [100], parent := 24,
    childCount := 0, children := [], dataSz := 0, dataOffs := 0, realSz := 0 }

/-- Concrete uncompressed file for the C8 witness. -/
def rawFileC8 : FrogEntry :=
  { isDir := false, compression := 0, seg := [101], parent := 24,
    childCount := 0, children := [], dataSz := 10, dataOffs := 64, realSz := 0 }

/-- Concrete compressed file opened with the RAW flag for the C8 witness. -/
def rawFlagFileC8 : FrogEntry :=
  { isDir := false, compression := 2, seg := [102], parent := 24,
    childCount := 0, children := [], dataSz := 7, dataOffs := 80, realSz := 20 }

/-- Concrete DEFLATE file for the C8 witness. -/
def deflateFileC8 : FrogEntry :=
  { isDir := false, compression := 1, seg := [103], parent := 24,
    childCount := 0, children := [], dataSz := 312, dataOffs := 96,
    realSz := 1024 }

/-- Concrete Heatshrink file for the C8 witness. -/
def heatshrinkFileC8 : FrogEntry :=
  { isDir := false, compression := 2, seg := [104], parent := 24,
    childCount := 0, children := [], dataSz := 100, dataOffs := 416,
    realSz := 300 }

/-- Concrete file with an unknown compression tag for the C8 witness. -/
def unknownFileC8 : FrogEntry :=
  { isDir := false, compression := 7, seg := [105], parent := 24,
    childCount := 0, children := [], dataSz := 5, dataOffs := 520, realSz := 9 }

/-- C8 witness: the selection table evaluated with both decoders compiled in,
    flags 0 and the RAW flag, on concrete entries of every kind. -/
theorem c8_open_driver_selection_witness :
    frogfs_open true true dirOpenC8 0 = none
    ∧ frogfs_open true true rawFileC8 0 = some
        { file := rawFileC8, dataStart := 64, dataSz := 10, realSz := 10,
          flags := 0, driver := .raw, pos := 0 }
    ∧ frogfs_open true true rawFlagFileC8 1 = some
        { file := rawFlagFileC8, dataStart := 80, dataSz := 7, realSz := 7,
          flags := 1, driver := .raw, pos := 0 }
    ∧ frogfs_open true true deflateFileC8 0 = some
        { file := deflateFileC8, dataStart := 96, dataSz := 312,
          realSz := 1024, flags := 0, driver := .deflate, pos := 0 }
    ∧ frogfs_open true true heatshrinkFileC8 0 = some
        { file := heatshrinkFileC8, dataStart := 416, dataSz := 100,
          realSz := 300, flags := 0, driver := .heatshrink, pos := 0 }
    ∧ frogfs_open true true unknownFileC8 0 = none :=
  c8_open_driver_selection true true 0 1 dirOpenC8 rawFileC8 rawFlagFileC8
    deflateFileC8 heatshrinkFileC8 unknownFileC8 rfl rfl rfl rfl (by decide)
    rfl rfl rfl (by decide) rfl rfl rfl rfl (by decide) (by decide) (by decide)

/-- C9: on an uncompressed file entry, opening with the RAW flag and opening
    with flags 0 build handles identical except for the stored flags field —
    same entry, data start, data size, logical size (= data_sz) and the Raw
    driver — and the raw driver's read/seek/tell never consult the flags
    field, so the flag changes nothing about subsequent behaviour. -/
theorem c9_raw_flag_inert_on_uncompressed (D H : Bool) (e : FrogEntry)
    (hfd : e.isDir = false) (h0 : e.compression = 0) :
    (frogfs_open D H e FROGFS_OPEN_RAW).map (fun fh => { fh with flags := 0 })
        = frogfs_open D H e 0
    ∧ (frogfs_open D H e FROGFS_OPEN_RAW).map FileHandle.realSz = some e.dataSz
    ∧ (frogfs_open D H e FROGFS_OPEN_RAW).map FileHandle.driver = some Driver.raw
    ∧ (∀ fh : FileHandle, ∀ fl len, raw_read { fh with flags := fl } len
          = ((raw_read fh len).1, { (raw_read fh len).2 with flags := fl }))
    ∧ (∀ fh : FileHandle, ∀ fl off w, raw_seek { fh with flags := fl } off w
          = (raw_seek fh off w).map (fun r => { r with flags := fl }))
    ∧ (∀ fh : FileHandle, ∀ fl, raw_tell { fh with flags := fl } = raw_tell fh) := by
  refine ⟨?_, ?_, ?_, ?_, ?_, ?_⟩
  · simp [frogfs_open, hfd, h0]
  · simp [frogfs_open, hfd, h0]
  · simp [frogfs_open, hfd, h0]
  · intro fh fl len; simp [raw_read]
  · intro fh fl off w
    cases w <;> dsimp only [raw_seek] <;> split <;> simp
  · intro fh fl; simp [raw_tell]

/-- Concrete uncompressed file for the C9 witness. -/
def rawFileC9 : FrogEntry :=
  { isDir := false, compression := 0, seg := [114], parent := 24,
    childCount := 0, children := [], dataSz := 10, dataOffs := 64, realSz := 0 }

/-- C9 witness: the RAW-flag inertness evaluated on a concrete uncompressed
    file with both decoders compiled out. -/
theorem c9_raw_flag_inert_witness :
    ((frogfs_open false false rawFileC9 FROGFS_OPEN_RAW).map
        (fun fh => { fh with flags := 0 }) = frogfs_open false false rawFileC9 0)
    ∧ (frogfs_open false false rawFileC9 FROGFS_OPEN_RAW).map FileHandle.realSz
        = some rawFileC9.dataSz
    ∧ (frogfs_open false false rawFileC9 FROGFS_OPEN_RAW).map FileHandle.driver
        = some Driver.raw
    ∧ (∀ fh : FileHandle, ∀ fl len, raw_read { fh with flags := fl } len
          = ((raw_read fh len).1, { (raw_read fh len).2 with flags := fl }))
    ∧ (∀ fh : FileHandle, ∀ fl off w, raw_seek { fh with flags := fl } off w
          = (raw_seek fh off w).map (fun r => { r with flags := fl }))
    ∧ (∀ fh : FileHandle, ∀ fl, raw_tell { fh with flags := fl } = raw_tell fh) :=
  c9_raw_flag_inert_on_uncompressed false false rawFileC9 rfl rfl

/-- One call keeps the directory pointer stable and the cursor bounded by
    child_count. -/
theorem applyDirOp_invariant (d : FrogEntry) (dh : DirHandle) (op : DirOp)
    (hdir : dh.dir = some d) (hidx : dh.index ≤ d.childCount) :
    (applyDirOp dh op).dir = some d
    ∧ (applyDirOp dh op).index ≤ d.childCount := by
  cases op with
  | read =>
    by_cases hc : dh.index < d.childCount
    · constructor
      · simp [applyDirOp, frogfs_readdir, hdir, hc]
      · simp [applyDirOp, frogfs_readdir, hdir, hc]
        omega
    · constructor
      · simp [applyDirOp, frogfs_readdir, hdir, hc]
      · simp [applyDirOp, frogfs_readdir, hdir, hc]
        exact hidx
  | rewind => exact ⟨hdir, Nat.zero_le _⟩
  | tell => exact ⟨hdir, hidx⟩

/-- The invariant of `applyDirOp_invariant` carried over a call sequence. -/
theorem runDirOps_invariant (d : FrogEntry) (ops : List DirOp) :
    ∀ dh : DirHandle, dh.dir = some d → dh.index ≤ d.childCount →
    (runDirOps dh ops).dir = some d
    ∧ (runDirOps dh ops).index ≤ d.childCount := by
  induction ops with
  | nil => intro dh h1 h2; exact ⟨h1, h2⟩
  | cons op rest ih =>
    intro dh h1 h2
    have h := applyDirOp_invariant d dh op h1 h2
    simpa [runDirOps, List.foldl_cons] using ih (applyDirOp dh op) h.1 h.2

/-- C10: starting from a freshly opened handle, no sequence of readdir /
    rewinddir / telldir calls pushes the cursor past child_count; and when
    the cursor sits at child_count, readdir returns End (none) and leaves the
    handle unchanged, so telldir still returns child_count afterwards. -/
theorem c10_dir_cursor_never_exceeds_child_count (d : FrogEntry)
    (ops : List DirOp) :
    frogfs_telldir (runDirOps (opendirHandle d) ops) ≤ d.childCount
    ∧ (frogfs_telldir (runDirOps (opendirHandle d) ops) = d.childCount →
        frogfs_readdir (runDirOps (opendirHandle d) ops) =
          (none, runDirOps (opendirHandle d) ops)
        ∧ frogfs_telldir (frogfs_readdir (runDirOps (opendirHandle d) ops)).2
            = d.childCount) := by
  obtain ⟨hdir, hidx⟩ :=
    runDirOps_invariant d ops (opendirHandle d) rfl (Nat.zero_le _)
  refine ⟨hidx, fun heq => ?_⟩
  have hr : frogfs_readdir (runDirOps (opendirHandle d) ops)
      = (none, runDirOps (opendirHandle d) ops) :=
    frogfs_readdir_at_end _ d hdir (le_of_eq heq.symm)
  exact ⟨hr, by rw [hr]; exact heq⟩

/-- A one-child directory entry for the C10 witness. -/
def dirC10 : FrogEntry :=
  { isDir := true, compression := 0, seg := [101], parent := 24,
    childCount := 1, children := [64], dataSz := 0, dataOffs := 0,
    realSz := 0 }

/-- C10 witness: after two readdir calls on a one-child directory the cursor
    sits exactly at child_count, a further readdir returns End without moving
    it, and telldir still reports child_count. -/
theorem c10_dir_cursor_witness :
    frogfs_telldir (runDirOps (opendirHandle dirC10) [DirOp.read, DirOp.read])
      ≤ dirC10.childCount
    ∧ (frogfs_readdir (runDirOps (opendirHandle dirC10) [DirOp.read, DirOp.read])
        = (none, runDirOps (opendirHandle dirC10) [DirOp.read, DirOp.read])
      ∧ frogfs_telldir (frogfs_readdir (runDirOps (opendirHandle dirC10)
          [DirOp.read, DirOp.read])).2 = dirC10.childCount) :=
  ⟨(c10_dir_cursor_never_exceeds_child_count dirC10 [DirOp.read, DirOp.read]).1,
   (c10_dir_cursor_never_exceeds_child_count dirC10 [DirOp.read, DirOp.read]).2
     (by decide)⟩

end Frogfs
